import Mathlib

/-!
Verification of the range-streaming media server in `src/index.js`
(idrios/node-server-ultralite).

The JavaScript source is shallowly embedded: the response object is a trace
of actions (`ResAction`), the filesystem is an oracle `String → FsFile`
giving the `fs.stat` outcome and the file's bytes, and the nondeterminism of
a read stream failing mid-flight is an explicit `StreamOutcome` parameter.
Machine numbers are `Nat`/`Int`; the JavaScript `NaN` produced by
`parseInt` on a non-numeric string is `Option.none`.
-/

set_option maxRecDepth 8000

namespace NodeServerUltralite

/-- Accumulate a run of decimal digit characters into a natural number,
most significant digit first. -/
def digitsToNat (ds : List Char) : Nat :=
  ds.foldl (fun a c => 10 * a + (c.toNat - 48)) 0

/-- JavaScript `parseInt(s, 10)`: skip leading whitespace, then an optional
sign, then read the longest leading run of decimal digits, ignoring any
trailing characters; `none` models the `NaN` result when no digit is read. -/
def parseIntJS (s : String) : Option Int :=
  let cs := s.data.dropWhile Char.isWhitespace
  let signAndRest : Int × List Char :=
    match cs with
    | '-' :: r => (-1, r)
    | '+' :: r => (1, r)
    | r => (1, r)
  let ds := signAndRest.2.takeWhile Char.isDigit
  if ds.isEmpty then none else some (signAndRest.1 * digitsToNat ds)

/-- JavaScript `String.prototype.split` with a one-character separator: the
list of (possibly empty) segments between occurrences of `sep`; the empty
string splits to `[""]`. -/
def splitOnChar (sep : Char) : List Char → List (List Char)
  | [] => [[]]
  | c :: rest =>
    if c = sep then [] :: splitOnChar sep rest
    else
      match splitOnChar sep rest with
      | [] => [[c]]
      | g :: gs => (c :: g) :: gs

/-- JavaScript `String.prototype.replace` with a plain (non-global) pattern
and empty replacement: remove the first occurrence of `pat`, or return the
list unchanged when `pat` does not occur. -/
def stripFirstOccurAux (pat : List Char) : List Char → List Char
  | [] => []
  | c :: cs =>
    if pat.isPrefixOf (c :: cs) then (c :: cs).drop pat.length
    else c :: stripFirstOccurAux pat cs

/-- `rangeHeader.replace(/bytes=/, "")` from src/index.js line 158, for an
arbitrary plain pattern. -/
def stripFirstOccur (pat s : String) : String :=
  List.asString (stripFirstOccurAux pat.data s.data)

/-- JavaScript `split` on a one-character separator, producing `String`s. -/
def jsSplit (sep : Char) (s : String) : List String :=
  (splitOnChar sep s.data).map List.asString

/-- JavaScript truthiness of a possibly-undefined string value: `undefined`
and the empty string are falsy, every other string is truthy. -/
def jsTruthyStr : Option String → Bool
  | none => false
  | some s => !s.data.isEmpty

/-- JavaScript number-to-string conversion for the values that arise here:
an integer prints in decimal and `NaN` prints as `"NaN"`. -/
def numToStr : Option Int → String
  | none => "NaN"
  | some i => toString i

/-- Fuel-driven worker for `chunksOf`; the fuel is an upper bound on the
number of chunks still to emit (the list length suffices when the
chunk size is positive). -/
def chunksOfAux (hwm : Nat) : Nat → List Nat → List (List Nat)
  | _, [] => []
  | 0, _ :: _ => []
  | fuel + 1, c :: cs => ((c :: cs).take hwm) :: chunksOfAux hwm fuel ((c :: cs).drop hwm)

/-- The successive data chunks a Node read stream with the given
`highWaterMark` delivers for a payload: maximal runs of `hwm` bytes. -/
def chunksOf (hwm : Nat) (l : List Nat) : List (List Nat) :=
  if hwm = 0 then [] else chunksOfAux hwm l.length l

/-- One observable action performed on the Node response object `res`:
writing the status line and headers, writing a chunk of body bytes to the
socket, ending the response with a (possibly empty) string body, or the
connection dying with the response left incomplete. -/
inductive ResAction where
  | writeHead (status : Nat) (headers : List (String × String))
  | writeChunk (bytes : List Nat)
  | resEnd (body : String)
  | streamAborted
deriving DecidableEq

/-- Outcome of `fs.stat` on a path, together with the file content when the
path is a regular file: `statError` models the `err` callback argument
(e.g. ENOENT), `notRegularFile` a successful stat with `isFile()` false. -/
inductive FsFile where
  | statError
  | notRegularFile
  | regular (bytes : List Nat)
deriving DecidableEq

/-- Whether the piped read stream delivers all of its chunks, or emits
`'error'` after `n` chunks have been written to the response. -/
inductive StreamOutcome where
  | ok
  | failAfter (n : Nat)
deriving DecidableEq

/-- `send404` from src/index.js lines 112-118: a 404 head plus a plain-text
body. -/
def send404Actions : List ResAction :=
  [ResAction.writeHead 404
     [("Content-Type", "text/plain"), ("Access-Control-Allow-Origin", "*")],
   ResAction.resEnd "404 Not Found"]

/-- `sendJSON` from src/index.js lines 103-110, applied to an
already-serialized body. -/
def sendJSONActions (body : String) : List ResAction :=
  [ResAction.writeHead 200
     [("Content-Type", "application/json"), ("Access-Control-Allow-Origin", "*")],
   ResAction.resEnd body]

/-- A stream piped into `res` with `.on('error', () => send404(res))`
attached, as on src/index.js lines 179-181: on success every chunk is
written and the response is ended; on a mid-stream error the error handler
runs `send404`, i.e. it attempts a second `writeHead`. -/
def pipeWith404OnError (chunks : List (List Nat)) : StreamOutcome → List ResAction
  | StreamOutcome.ok => chunks.map ResAction.writeChunk ++ [ResAction.resEnd ""]
  | StreamOutcome.failAfter n =>
      (chunks.take n).map ResAction.writeChunk ++ send404Actions

/-- A stream piped into `res` with no error handler, as on src/index.js
line 154: a mid-stream error leaves the response dangling and the
connection dies. -/
def pipePlain (chunks : List (List Nat)) : StreamOutcome → List ResAction
  | StreamOutcome.ok => chunks.map ResAction.writeChunk ++ [ResAction.resEnd ""]
  | StreamOutcome.failAfter n =>
      (chunks.take n).map ResAction.writeChunk ++ [ResAction.streamAborted]

/-- Default `highWaterMark` of `fs.createReadStream` (64 KiB), in effect on
the no-range path where the source passes no options (line 154). -/
def defaultHWM : Nat := 64 * 1024

/-- The `highWaterMark: 4 * 1024 * 1024` passed on the range path
(line 179). -/
def rangeHWM : Nat := 4 * 1024 * 1024

/-- `fs.createReadStream(filePath, \x7b start, end \x7d)` piped into `res`
(src/index.js lines 179-181).  Node validates the offsets: a non-numeric
(`NaN`) or negative `start`/`end`, or `start > end`, is rejected when the
stream is constructed (ERR_OUT_OF_RANGE), so no bytes flow and the
connection dies; otherwise the bytes at offsets `start` through `end`
inclusive (truncated at end of file) are delivered in chunks. -/
def createReadStreamPiped (bytes : List Nat) (so eo : Option Int)
    (oc : StreamOutcome) : List ResAction :=
  match so, eo with
  | some s, some e =>
    if 0 ≤ s ∧ s ≤ e then
      pipeWith404OnError
        (chunksOf rangeHWM ((bytes.drop s.toNat).take (e - s + 1).toNat)) oc
    else [ResAction.streamAborted]
  | _, _ => [ResAction.streamAborted]

/-- The no-range branch of `sendFileAsStream` (src/index.js lines 147-156):
a 200 head advertising the full file length, then the whole file piped. -/
def fullFileResponse (bytes : List Nat) (contentTy : String)
    (oc : StreamOutcome) : List ResAction :=
  ResAction.writeHead 200
      [("Accept-Ranges", "bytes"),
       ("Content-Type", contentTy),
       ("Content-Length", toString bytes.length),
       ("Access-Control-Allow-Origin", "*")]
    :: pipePlain (chunksOf defaultHWM bytes) oc

/-- The range branch of `sendFileAsStream` (src/index.js lines 158-181):
strip `bytes=`, split on `-`, `parseInt` the two parts (an absent second
part defaults to `fileSize - 1`), write a 206 head built from those
numbers (NaN included), then pipe the read stream for `[start, end]`. -/
def rangeResponse (bytes : List Nat) (contentTy : String) (rhv : String)
    (oc : StreamOutcome) : List ResAction :=
  let fileSize := bytes.length
  let range := jsSplit '-' (stripFirstOccur "bytes=" rhv)
  let startv := parseIntJS (range.headD "")
  let endv : Option Int :=
    if jsTruthyStr (range.get? 1) then parseIntJS ((range.get? 1).getD "")
    else some ((fileSize : Int) - 1)
  let chunkSize : Option Int :=
    match startv, endv with
    | some s, some e => some (e - s + 1)
    | _, _ => none
  ResAction.writeHead 206
      [("Content-Range",
        "bytes " ++ numToStr startv ++ "-" ++ numToStr endv ++ "/" ++ toString fileSize),
       ("Accept-Ranges", "bytes"),
       ("Content-Type", contentTy),
       ("Content-Length", numToStr chunkSize),
       ("Access-Control-Allow-Origin", "*"),
       ("Connection", "keep-alive")]
    :: createReadStreamPiped bytes startv endv oc

/-- `sendFileAsStream` from src/index.js lines 139-183: stat the path (404
on error or non-regular file), then answer with the full file when the
`Range` header is absent or empty, and with the parsed-range 206 response
otherwise. -/
def sendFileAsStream (fsys : String → FsFile) (filePath contentTy : String)
    (rangeHeader : Option String) (oc : StreamOutcome) : List ResAction :=
  match fsys filePath with
  | FsFile.statError => send404Actions
  | FsFile.notRegularFile => send404Actions
  | FsFile.regular bytes =>
    match rangeHeader with
    | none => fullFileResponse bytes contentTy oc
    | some v =>
      if v.data = [] then fullFileResponse bytes contentTy oc
      else rangeResponse bytes contentTy v oc

/-- A catalog entry of `videoList` (src/index.js lines 255-266), with the
fields the object literal actually carries. -/
structure VideoEntry where
  id : String
  title : String
  description : String
  thumbnailUrl : String
  videoUrl : String
  author : String
  tags : List String
  duration : String
deriving DecidableEq

/-- The single hardcoded entry of `videoList` (fields in source order:
id, title, description, thumbnailUrl, videoUrl, author, tags, duration). -/
def metropolis : VideoEntry :=
  ⟨"1", "Metropolis",
   "Metropolis, the 1927 silent film directed by Fritz Lang",
   "./thumbnails/metropolis.png", "./videos/metropolis.mp4",
   "Fritz Lang", ["dramatic", "orchestral", "silent film"], "12000.000"⟩

/-- `videoList` from src/index.js lines 255-266. -/
def videoList : List VideoEntry := [metropolis]

/-- JavaScript property access on a catalog entry for string-valued keys:
the fields present on the object literal yield their value, any other key
(in particular `internalVideoUrl` and `internalThumbnailUrl`, read by the
handlers) yields `undefined` (`none`).  The array-valued key `tags` is not
string-valued and is never read through this accessor. -/
def entryStrProp (e : VideoEntry) : String → Option String
  | "id" => some e.id
  | "title" => some e.title
  | "description" => some e.description
  | "thumbnailUrl" => some e.thumbnailUrl
  | "videoUrl" => some e.videoUrl
  | "author" => some e.author
  | "duration" => some e.duration
  | _ => none

/-- Message of the TypeError Node's `path.join` throws when handed a
non-string argument. -/
def pathArgTypeError : String :=
  "TypeError: The path argument must be of type string"

/-- Node `path.join(dir, p)` where the second argument may be `undefined`:
a non-string argument throws a TypeError; otherwise the segments are joined
with `/` (normalization is simplified to dropping a leading `./`, which is
all the catalog paths need). -/
def pathJoin (dir : String) (p : Option String) : Except String String :=
  match p with
  | none => Except.error pathArgTypeError
  | some s =>
      Except.ok (dir ++ "/" ++
        (if "./".data.isPrefixOf s.data then List.asString (s.data.drop 2) else s))

/-- JSON string quoting for the catalog values (none of which contains a
character that `JSON.stringify` escapes). -/
def quoteJS (s : String) : String := "\"" ++ s ++ "\""

/-- `JSON.stringify` of a catalog entry, with the key order of the object
literal. -/
def entryJSON (e : VideoEntry) : String :=
  "\x7b" ++ quoteJS "id" ++ ":" ++ quoteJS e.id
    ++ "," ++ quoteJS "title" ++ ":" ++ quoteJS e.title
    ++ "," ++ quoteJS "description" ++ ":" ++ quoteJS e.description
    ++ "," ++ quoteJS "thumbnailUrl" ++ ":" ++ quoteJS e.thumbnailUrl
    ++ "," ++ quoteJS "videoUrl" ++ ":" ++ quoteJS e.videoUrl
    ++ "," ++ quoteJS "author" ++ ":" ++ quoteJS e.author
    ++ "," ++ quoteJS "tags" ++ ":[" ++ String.intercalate "," (e.tags.map quoteJS) ++ "]"
    ++ "," ++ quoteJS "duration" ++ ":" ++ quoteJS e.duration ++ "\x7d"

/-- `JSON.stringify(\x7b message: "Welcome to the Video Server API" \x7d)`. -/
def welcomeJSON : String :=
  "\x7b\"message\":\"Welcome to the Video Server API\"\x7d"

/-- `JSON.stringify(\x7b videos: videoList \x7d)`. -/
def videosJSON : String :=
  "\x7b" ++ quoteJS "videos" ++ ":["
    ++ String.intercalate "," (videoList.map entryJSON) ++ "]\x7d"

/-- The source's `.split('/').filter(part => part.length > 0)`, performed on
the character lists before re-wrapping the segments as `String`s. -/
def nonEmptyParts (s : String) : List String :=
  ((splitOnChar '/' s.data).filter (fun p => decide (0 < p.length))).map List.asString

/-- `patternPart.startsWith(':')`, decided on the character list. -/
def startsWithColon (s : String) : Bool :=
  match s.data with
  | ':' :: _ => true
  | _ => false

/-- `patternPart.slice(1)`, performed on the character list. -/
def sliceOne (s : String) : String :=
  List.asString s.data.tail

/-- The per-segment walk of `app.matchRoute` (src/index.js lines 84-93): a
`:name` pattern segment binds the path segment, otherwise the segments must
be equal; `none` is the JavaScript `null` mismatch result. -/
def matchParts : List String → List String → Option (List (String × String))
  | [], [] => some []
  | pp :: ps, q :: qs =>
    if startsWithColon pp then
      (matchParts ps qs).map (fun m => (sliceOne pp, q) :: m)
    else if pp = q then matchParts ps qs
    else none
  | _, _ => none

/-- `app.matchRoute` from src/index.js lines 73-96: split template and path
on `/`, drop empty segments, require equal segment counts, then match
segmentwise.  Note the raw request URL is used verbatim — nothing strips a
query string. -/
def matchRoute (patt p : String) : Option (List (String × String)) :=
  let patternParts := nonEmptyParts patt
  let pathParts := nonEmptyParts p
  if patternParts.length = pathParts.length then matchParts patternParts pathParts
  else none

/-- The handlers registered with `app.get`, identified by tag. -/
inductive EndpointTag where
  | root
  | favicon
  | videosIndex
  | videoInfo
  | videoStream
  | thumbStream
deriving DecidableEq

/-- The GET route table in registration order (src/index.js lines 189-236). -/
def getEndpoints : List (String × EndpointTag) :=
  [("/", EndpointTag.root),
   ("/favicon.ico", EndpointTag.favicon),
   ("/api/videos", EndpointTag.videosIndex),
   ("/api/videos/:id/info", EndpointTag.videoInfo),
   ("/api/videos/:id", EndpointTag.videoStream),
   ("/api/thumbnails/:id", EndpointTag.thumbStream)]

/-- `app.findEndpointHandler` from src/index.js lines 59-71: the first
registered endpoint of the method whose template matches the raw URL.  The
route tables of the other registered methods are empty, and an unknown
method has no table, so every non-GET request falls through to `none`. -/
def findEndpointHandler (method url : String) :
    Option (EndpointTag × List (String × String)) :=
  (if method = "GET" then getEndpoints else []).findSome?
    (fun e => (matchRoute e.1 url).map (fun ps => (e.2, ps)))

/-- `req.params.id`: property access on the params object built by the
router; `none` is `undefined`. -/
def lookupParam (ps : List (String × String)) (k : String) : Option String :=
  List.lookup k ps

/-- The body of each registered handler (src/index.js lines 189-236).
`dir` stands for `__dirname`; an `Except.error` is an exception thrown
synchronously by the handler before anything is written to `res`. -/
def runHandler (tag : EndpointTag) (ps : List (String × String)) (dir : String)
    (fsys : String → FsFile) (rangeHeader : Option String) (oc : StreamOutcome) :
    Except String (List ResAction) :=
  match tag with
  | EndpointTag.root => Except.ok (sendJSONActions welcomeJSON)
  | EndpointTag.favicon => Except.ok send404Actions
  | EndpointTag.videosIndex => Except.ok (sendJSONActions videosJSON)
  | EndpointTag.videoInfo =>
    match videoList.find? (fun e => lookupParam ps "id" == some e.id) with
    | none => Except.ok send404Actions
    | some e => Except.ok (sendJSONActions (entryJSON e))
  | EndpointTag.videoStream =>
    match videoList.find? (fun e => lookupParam ps "id" == some e.id) with
    | none => Except.ok send404Actions
    | some e =>
      match pathJoin dir (entryStrProp e "internalVideoUrl") with
      | Except.error msg => Except.error msg
      | Except.ok p => Except.ok (sendFileAsStream fsys p "video/mp4" rangeHeader oc)
  | EndpointTag.thumbStream =>
    match videoList.find? (fun e => lookupParam ps "id" == some e.id) with
    | none => Except.ok send404Actions
    | some e =>
      match pathJoin dir (entryStrProp e "internalThumbnailUrl") with
      | Except.error msg => Except.error msg
      | Except.ok p => Except.ok (sendFileAsStream fsys p "image/png" rangeHeader oc)

/-- The `http.createServer` callback (src/index.js lines 241-248): dispatch
the raw method and URL; no matching endpoint means `send404`. -/
def serverHandle (method url dir : String) (fsys : String → FsFile)
    (rangeHeader : Option String) (oc : StreamOutcome) :
    Except String (List ResAction) :=
  match findEndpointHandler method url with
  | none => Except.ok send404Actions
  | some (tag, ps) => runHandler tag ps dir fsys rangeHeader oc

/-- The first `writeHead` of a response trace: its status and header list. -/
def headersOf : List ResAction → Option (Nat × List (String × String))
  | [] => none
  | ResAction.writeHead st hs :: _ => some (st, hs)
  | _ :: r => headersOf r

/-- Status of the first `writeHead` of a response trace. -/
def statusOf (r : List ResAction) : Option Nat :=
  (headersOf r).map Prod.fst

/-- Value of a header in the first `writeHead` of a response trace. -/
def headerVal (r : List ResAction) (k : String) : Option String :=
  match headersOf r with
  | none => none
  | some (_, hs) => List.lookup k hs

/-- All body bytes written to the socket by a response trace, in order. -/
def chunkBytes : List ResAction → List Nat
  | [] => []
  | ResAction.writeChunk b :: r => b ++ chunkBytes r
  | _ :: r => chunkBytes r

/-- Number of `writeHead` calls in a response trace (a second one throws
ERR_HTTP_HEADERS_SENT in Node). -/
def writeHeadCount : List ResAction → Nat
  | [] => 0
  | ResAction.writeHead _ _ :: r => writeHeadCount r + 1
  | _ :: r => writeHeadCount r

end NodeServerUltralite

namespace NodeServerUltralite

theorem asString_data (s : String) : List.asString s.data = s := rfl

theorem splitOnChar_ne_nil (sep : Char) (cs : List Char) : splitOnChar sep cs ≠ [] := by
  induction cs with
  | nil => simp [splitOnChar]
  | cons c rest ih =>
    simp only [splitOnChar]
    split
    · simp
    · split
      · simp
      · simp

theorem splitOnChar_no_sep (sep : Char) (cs : List Char) (h : sep ∉ cs) :
    splitOnChar sep cs = [cs] := by
  induction cs with
  | nil => rfl
  | cons c rest ih =>
    have hc : ¬ c = sep := by rintro rfl; exact h (List.mem_cons_self _ _)
    have hr : sep ∉ rest := fun hm => h (List.mem_cons_of_mem _ hm)
    simp [splitOnChar, hc, ih hr]

theorem splitOnChar_cons_self (sep : Char) (cs : List Char) :
    splitOnChar sep (sep :: cs) = [] :: splitOnChar sep cs := by
  simp [splitOnChar]

theorem splitOnChar_append_no_sep (sep : Char) (xs ys : List Char) (h : sep ∉ xs) :
    splitOnChar sep (xs ++ ys) =
      (xs ++ (splitOnChar sep ys).headD []) :: (splitOnChar sep ys).tail := by
  induction xs with
  | nil =>
    simp only [List.nil_append]
    cases hr : splitOnChar sep ys with
    | nil => exact absurd hr (splitOnChar_ne_nil sep ys)
    | cons g gs => simp
  | cons c cs ih =>
    have hc : ¬ c = sep := by rintro rfl; exact h (List.mem_cons_self _ _)
    have hcs : sep ∉ cs := fun hm => h (List.mem_cons_of_mem _ hm)
    rw [List.cons_append]
    simp only [splitOnChar, if_neg hc, ih hcs]
    simp

theorem isPrefixOf_append_self (l r : List Char) : l.isPrefixOf (l ++ r) = true := by
  induction l with
  | nil => cases r <;> rfl
  | cons c cs ih => simp [List.isPrefixOf, ih]

theorem stripFirstOccurAux_of_append (pat rest : List Char) (hp : pat ≠ []) :
    stripFirstOccurAux pat (pat ++ rest) = rest := by
  cases pat with
  | nil => exact absurd rfl hp
  | cons p ps =>
    rw [List.cons_append]
    simp only [stripFirstOccurAux]
    rw [show p :: (ps ++ rest) = (p :: ps) ++ rest from rfl]
    rw [if_pos (isPrefixOf_append_self (p :: ps) rest)]
    exact List.drop_left (p :: ps) rest

theorem jsSplit_range_explicit (sStr eStr : String)
    (hds : ('-' : Char) ∉ sStr.data) (hde : ('-' : Char) ∉ eStr.data) :
    jsSplit '-' (stripFirstOccur "bytes=" ("bytes=" ++ sStr ++ "-" ++ eStr)) = [sStr, eStr] := by
  have hdata : ("bytes=" ++ sStr ++ "-" ++ eStr).data
      = "bytes=".data ++ (sStr.data ++ '-' :: eStr.data) := by
    simp [String.data_append]
  unfold jsSplit stripFirstOccur
  rw [hdata, stripFirstOccurAux_of_append _ _ (by decide)]
  rw [show (List.asString (sStr.data ++ '-' :: eStr.data)).data = sStr.data ++ '-' :: eStr.data from rfl]
  rw [splitOnChar_append_no_sep '-' _ _ hds,
      splitOnChar_cons_self, splitOnChar_no_sep '-' _ hde]
  simp [asString_data]

theorem jsSplit_range_omitted_start (eStr : String) (hde : ('-' : Char) ∉ eStr.data) :
    jsSplit '-' (stripFirstOccur "bytes=" ("bytes=-" ++ eStr)) = ["", eStr] := by
  have hdata : ("bytes=-" ++ eStr).data = "bytes=".data ++ ('-' :: eStr.data) := rfl
  unfold jsSplit stripFirstOccur
  rw [hdata, stripFirstOccurAux_of_append _ _ (by decide)]
  rw [show (List.asString ('-' :: eStr.data)).data = '-' :: eStr.data from rfl]
  rw [splitOnChar_cons_self, splitOnChar_no_sep '-' _ hde]
  simp [asString_data]
  rfl

theorem chunksOfAux_flatten (hwm : Nat) :
    ∀ (fuel : Nat) (l : List Nat), hwm ≠ 0 → l.length ≤ fuel →
      (chunksOfAux hwm fuel l).flatten = l := by
  intro fuel
  induction fuel with
  | zero =>
    intro l _ hl
    cases l with
    | nil => rfl
    | cons c cs => simp at hl
  | succ n ih =>
    intro l hh hl
    cases l with
    | nil => rfl
    | cons c cs =>
      simp only [chunksOfAux, List.flatten_cons]
      rw [ih _ hh ?_]
      · exact List.take_append_drop hwm (c :: cs)
      · simp only [List.length_drop, List.length_cons] at hl ⊢
        omega

theorem chunksOf_flatten (hwm : Nat) (hh : hwm ≠ 0) (l : List Nat) :
    (chunksOf hwm l).flatten = l := by
  unfold chunksOf
  rw [if_neg hh]
  exact chunksOfAux_flatten hwm l.length l hh le_rfl

theorem chunksOfAux_mem_length (hwm : Nat) :
    ∀ (fuel : Nat) (l c : List Nat), c ∈ chunksOfAux hwm fuel l → c.length ≤ hwm := by
  intro fuel
  induction fuel with
  | zero =>
    intro l c hc
    cases l <;> simp [chunksOfAux] at hc
  | succ n ih =>
    intro l c hc
    cases l with
    | nil => simp [chunksOfAux] at hc
    | cons a as =>
      simp only [chunksOfAux, List.mem_cons] at hc
      rcases hc with rfl | hc
      · exact List.length_take_le hwm (a :: as)
      · exact ih _ _ hc

theorem chunksOf_mem_length (hwm : Nat) (l c : List Nat) (hc : c ∈ chunksOf hwm l) :
    c.length ≤ hwm := by
  unfold chunksOf at hc
  by_cases hh : hwm = 0
  · simp [hh] at hc
  · rw [if_neg hh] at hc
    exact chunksOfAux_mem_length hwm l.length l c hc

theorem chunkBytes_map_writeChunk (chunks : List (List Nat)) (rest : List ResAction) :
    chunkBytes (chunks.map ResAction.writeChunk ++ rest)
      = chunks.flatten ++ chunkBytes rest := by
  induction chunks with
  | nil => simp
  | cons c cs ih => simp [chunkBytes, ih]

theorem chunkBytes_pipe404_ok (chunks : List (List Nat)) :
    chunkBytes (pipeWith404OnError chunks StreamOutcome.ok) = chunks.flatten := by
  simp [pipeWith404OnError, chunkBytes_map_writeChunk, chunkBytes]

theorem chunkBytes_pipePlain_ok (chunks : List (List Nat)) :
    chunkBytes (pipePlain chunks StreamOutcome.ok) = chunks.flatten := by
  simp [pipePlain, chunkBytes_map_writeChunk, chunkBytes]

theorem numToStr_coe (n : Nat) : numToStr (some (n : Int)) = toString n := rfl

end NodeServerUltralite

namespace NodeServerUltralite

theorem nonEmptyParts_videos (idv : String) (h1 : idv.data ≠ []) (h2 : ('/' : Char) ∉ idv.data) :
    nonEmptyParts ("/api/videos/" ++ idv) = ["api", "videos", idv] := by
  have hd : ("/api/videos/" ++ idv).data
      = '/' :: ("api".data ++ ('/' :: ("videos".data ++ ('/' :: idv.data)))) := rfl
  unfold nonEmptyParts
  rw [hd, splitOnChar_cons_self, splitOnChar_append_no_sep '/' _ _ (by decide),
      splitOnChar_cons_self, splitOnChar_append_no_sep '/' _ _ (by decide),
      splitOnChar_cons_self, splitOnChar_no_sep '/' _ h2]
  simp [asString_data, List.length_pos, h1]
  exact ⟨rfl, rfl⟩

theorem nonEmptyParts_thumbnails (idv : String) (h1 : idv.data ≠ []) (h2 : ('/' : Char) ∉ idv.data) :
    nonEmptyParts ("/api/thumbnails/" ++ idv) = ["api", "thumbnails", idv] := by
  have hd : ("/api/thumbnails/" ++ idv).data
      = '/' :: ("api".data ++ ('/' :: ("thumbnails".data ++ ('/' :: idv.data)))) := rfl
  unfold nonEmptyParts
  rw [hd, splitOnChar_cons_self, splitOnChar_append_no_sep '/' _ _ (by decide),
      splitOnChar_cons_self, splitOnChar_append_no_sep '/' _ _ (by decide),
      splitOnChar_cons_self, splitOnChar_no_sep '/' _ h2]
  simp [asString_data, List.length_pos, h1]
  exact ⟨rfl, rfl⟩

theorem matchRoute_videos_id (idv : String) (h1 : idv.data ≠ []) (h2 : ('/' : Char) ∉ idv.data) :
    matchRoute "/api/videos/:id" ("/api/videos/" ++ idv) = some [("id", idv)] := by
  unfold matchRoute
  rw [nonEmptyParts_videos idv h1 h2]
  rfl

theorem matchRoute_thumbnails_id (idv : String) (h1 : idv.data ≠ []) (h2 : ('/' : Char) ∉ idv.data) :
    matchRoute "/api/thumbnails/:id" ("/api/thumbnails/" ++ idv) = some [("id", idv)] := by
  unfold matchRoute
  rw [nonEmptyParts_thumbnails idv h1 h2]
  rfl

theorem findEndpointHandler_videos (idv : String) (h1 : idv.data ≠ []) (h2 : ('/' : Char) ∉ idv.data) :
    findEndpointHandler "GET" ("/api/videos/" ++ idv)
      = some (EndpointTag.videoStream, [("id", idv)]) := by
  have hp := nonEmptyParts_videos idv h1 h2
  have m1 : matchRoute "/" ("/api/videos/" ++ idv) = none := by
    unfold matchRoute; rw [hp]; rfl
  have m2 : matchRoute "/favicon.ico" ("/api/videos/" ++ idv) = none := by
    unfold matchRoute; rw [hp]; rfl
  have m3 : matchRoute "/api/videos" ("/api/videos/" ++ idv) = none := by
    unfold matchRoute; rw [hp]; rfl
  have m4 : matchRoute "/api/videos/:id/info" ("/api/videos/" ++ idv) = none := by
    unfold matchRoute; rw [hp]; rfl
  have m5 := matchRoute_videos_id idv h1 h2
  unfold findEndpointHandler getEndpoints
  simp [List.findSome?, m1, m2, m3, m4, m5]

theorem findEndpointHandler_thumbnails (idv : String) (h1 : idv.data ≠ []) (h2 : ('/' : Char) ∉ idv.data) :
    findEndpointHandler "GET" ("/api/thumbnails/" ++ idv)
      = some (EndpointTag.thumbStream, [("id", idv)]) := by
  have hp := nonEmptyParts_thumbnails idv h1 h2
  have m1 : matchRoute "/" ("/api/thumbnails/" ++ idv) = none := by
    unfold matchRoute; rw [hp]; rfl
  have m2 : matchRoute "/favicon.ico" ("/api/thumbnails/" ++ idv) = none := by
    unfold matchRoute; rw [hp]; rfl
  have m3 : matchRoute "/api/videos" ("/api/thumbnails/" ++ idv) = none := by
    unfold matchRoute; rw [hp]; rfl
  have m4 : matchRoute "/api/videos/:id/info" ("/api/thumbnails/" ++ idv) = none := by
    unfold matchRoute; rw [hp]; rfl
  have m5 : matchRoute "/api/videos/:id" ("/api/thumbnails/" ++ idv) = none := by
    unfold matchRoute; rw [hp]; rfl
  have m6 := matchRoute_thumbnails_id idv h1 h2
  unfold findEndpointHandler getEndpoints
  simp [List.findSome?, m1, m2, m3, m4, m5, m6]

end NodeServerUltralite

namespace NodeServerUltralite

theorem mem_pipe404_chunk (chunks : List (List Nat)) (oc : StreamOutcome) (b : List Nat)
    (h : ResAction.writeChunk b ∈ pipeWith404OnError chunks oc) : b ∈ chunks := by
  cases oc with
  | ok =>
    simp only [pipeWith404OnError, List.mem_append, List.mem_map, List.mem_singleton] at h
    rcases h with ⟨c, hc, hbc⟩ | h
    · cases hbc; exact hc
    · cases h
  | failAfter n =>
    simp only [pipeWith404OnError, send404Actions, List.mem_append, List.mem_map] at h
    rcases h with ⟨c, hc, hbc⟩ | h
    · cases hbc; exact List.take_subset n chunks hc
    · simp at h

theorem mem_pipePlain_chunk (chunks : List (List Nat)) (oc : StreamOutcome) (b : List Nat)
    (h : ResAction.writeChunk b ∈ pipePlain chunks oc) : b ∈ chunks := by
  cases oc with
  | ok =>
    simp only [pipePlain, List.mem_append, List.mem_map, List.mem_singleton] at h
    rcases h with ⟨c, hc, hbc⟩ | h
    · cases hbc; exact hc
    · cases h
  | failAfter n =>
    simp only [pipePlain, List.mem_append, List.mem_map, List.mem_singleton] at h
    rcases h with ⟨c, hc, hbc⟩ | h
    · cases hbc; exact List.take_subset n chunks hc
    · cases h

theorem createReadStreamPiped_chunk_le (bytes : List Nat) (so eo : Option Int)
    (oc : StreamOutcome) (b : List Nat)
    (h : ResAction.writeChunk b ∈ createReadStreamPiped bytes so eo oc) :
    b.length ≤ rangeHWM := by
  rcases so with _ | s
  · simp [createReadStreamPiped] at h
  · rcases eo with _ | e
    · simp [createReadStreamPiped] at h
    · by_cases hg : 0 ≤ s ∧ s ≤ e
      · rw [createReadStreamPiped, if_pos hg] at h
        exact chunksOf_mem_length _ _ _ (mem_pipe404_chunk _ _ _ h)
      · rw [createReadStreamPiped, if_neg hg] at h
        simp at h

theorem fullFileResponse_chunk_le (bytes : List Nat) (ct : String) (oc : StreamOutcome)
    (b : List Nat) (h : ResAction.writeChunk b ∈ fullFileResponse bytes ct oc) :
    b.length ≤ defaultHWM := by
  simp only [fullFileResponse, List.mem_cons] at h
  rcases h with h | h
  · cases h
  · exact chunksOf_mem_length _ _ _ (mem_pipePlain_chunk _ _ _ h)

theorem rangeResponse_chunk_le (bytes : List Nat) (ct rhv : String) (oc : StreamOutcome)
    (b : List Nat) (h : ResAction.writeChunk b ∈ rangeResponse bytes ct rhv oc) :
    b.length ≤ rangeHWM := by
  simp only [rangeResponse, List.mem_cons] at h
  rcases h with h | h
  · cases h
  · exact createReadStreamPiped_chunk_le _ _ _ _ _ h

theorem sendFileAsStream_chunk_le (fsys : String → FsFile) (p ct : String)
    (rh : Option String) (oc : StreamOutcome) (b : List Nat)
    (h : ResAction.writeChunk b ∈ sendFileAsStream fsys p ct rh oc) :
    b.length ≤ rangeHWM := by
  unfold sendFileAsStream at h
  rcases hfp : fsys p with _ | _ | bytes <;> rw [hfp] at h
  · simp [send404Actions] at h
  · simp [send404Actions] at h
  · have hfull : ∀ oc2, ResAction.writeChunk b ∈ fullFileResponse bytes ct oc2 →
        b.length ≤ rangeHWM := by
      intro oc2 hm
      have := fullFileResponse_chunk_le bytes ct oc2 b hm
      unfold defaultHWM at this
      unfold rangeHWM
      omega
    rcases rh with _ | v
    · exact hfull oc h
    · replace h : ResAction.writeChunk b ∈
          (if v.data = [] then fullFileResponse bytes ct oc else rangeResponse bytes ct v oc) := h
      by_cases hv : v.data = []
      · rw [if_pos hv] at h
        exact hfull oc h
      · rw [if_neg hv] at h
        exact rangeResponse_chunk_le _ _ _ _ _ h

theorem sendFileAsStream_no_range (bytes : List Nat) (fsys : String → FsFile)
    (p ct : String) (rh : Option String) (oc : StreamOutcome)
    (hf : fsys p = FsFile.regular bytes) (hrh : rh = none ∨ rh = some "") :
    sendFileAsStream fsys p ct rh oc = fullFileResponse bytes ct oc := by
  rcases hrh with rfl | rfl
  · simp [sendFileAsStream, hf]
  · simp [sendFileAsStream, hf]

end NodeServerUltralite

namespace NodeServerUltralite

theorem serverHandle_unknown_id_videos (idv dir : String) (fsys : String → FsFile)
    (rh : Option String) (oc : StreamOutcome)
    (h1 : idv.data ≠ []) (h2 : ('/' : Char) ∉ idv.data)
    (hnid : ∀ v ∈ videoList, v.id ≠ idv) :
    serverHandle "GET" ("/api/videos/" ++ idv) dir fsys rh oc = Except.ok send404Actions := by
  have hid : (idv == "1") = false := by
    have hne : idv ≠ "1" :=
      fun h => (hnid metropolis (by simp [videoList])) (by rw [h]; rfl)
    exact beq_eq_false_iff_ne.mpr hne
  rw [serverHandle.eq_def, findEndpointHandler_videos idv h1 h2]
  simp [runHandler, videoList, metropolis, lookupParam, hid]

theorem serverHandle_unknown_id_thumbnails (idv dir : String) (fsys : String → FsFile)
    (rh : Option String) (oc : StreamOutcome)
    (h1 : idv.data ≠ []) (h2 : ('/' : Char) ∉ idv.data)
    (hnid : ∀ v ∈ videoList, v.id ≠ idv) :
    serverHandle "GET" ("/api/thumbnails/" ++ idv) dir fsys rh oc = Except.ok send404Actions := by
  have hid : (idv == "1") = false := by
    have hne : idv ≠ "1" :=
      fun h => (hnid metropolis (by simp [videoList])) (by rw [h]; rfl)
    exact beq_eq_false_iff_ne.mpr hne
  rw [serverHandle.eq_def, findEndpointHandler_thumbnails idv h1 h2]
  simp [runHandler, videoList, metropolis, lookupParam, hid]

end NodeServerUltralite

namespace NodeServerUltralite

theorem sendFileAsStream_explicit_range (bytes : List Nat) (fsys : String → FsFile)
    (p ct sStr eStr : String) (s e : Nat) (oc : StreamOutcome)
    (hf : fsys p = FsFile.regular bytes)
    (hs : parseIntJS sStr = some (s : Int)) (he : parseIntJS eStr = some (e : Int))
    (hds : ('-' : Char) ∉ sStr.data) (hde : ('-' : Char) ∉ eStr.data)
    (hse : s ≤ e) :
    sendFileAsStream fsys p ct (some ("bytes=" ++ sStr ++ "-" ++ eStr)) oc
      = ResAction.writeHead 206
          [("Content-Range",
            "bytes " ++ toString s ++ "-" ++ toString e ++ "/" ++ toString bytes.length),
           ("Accept-Ranges", "bytes"),
           ("Content-Type", ct),
           ("Content-Length", toString (e - s + 1)),
           ("Access-Control-Allow-Origin", "*"),
           ("Connection", "keep-alive")]
        :: pipeWith404OnError (chunksOf rangeHWM ((bytes.drop s).take (e - s + 1))) oc := by
  have hene : eStr.data ≠ [] := by
    intro h0
    simp [parseIntJS, h0] at he
  have htruthy : jsTruthyStr (some eStr) = true := by
    cases h : eStr.data with
    | nil => exact absurd h hene
    | cons a as => simp [jsTruthyStr, h]
  have hhdr : ¬ ("bytes=" ++ sStr ++ "-" ++ eStr).data = [] := by
    simp [String.data_append]
  have hsplit := jsSplit_range_explicit sStr eStr hds hde
  have hc1 : ((s : Int)).toNat = s := by omega
  have hc2 : ((e : Int) - (s : Int) + 1).toNat = e - s + 1 := by omega
  have hgd : (0 : Int) ≤ (s : Int) ∧ (s : Int) ≤ (e : Int) := by
    constructor <;> omega
  simp only [sendFileAsStream, hf]
  rw [if_neg hhdr]
  simp only [rangeResponse, hsplit, List.headD, List.get?, Option.getD, htruthy, hs, he, if_true]
  simp only [createReadStreamPiped, if_pos hgd, hc1, hc2]
  have hc3 : ((e : Int) - (s : Int) + 1) = ((e - s + 1 : Nat) : Int) := by omega
  rw [hc3]
  simp only [numToStr_coe]

end NodeServerUltralite

namespace NodeServerUltralite

/-- C1: for every explicit in-bounds range request, the responder answers
206 with matching Content-Range and Content-Length and streams exactly the
bytes at offsets start..end inclusive. -/
theorem valid_explicit_range_request_206 (bytes : List Nat) (fsys : String → FsFile)
    (p ct sStr eStr : String) (s e : Nat)
    (hf : fsys p = FsFile.regular bytes)
    (hs : parseIntJS sStr = some (s : Int)) (he : parseIntJS eStr = some (e : Int))
    (hds : ('-' : Char) ∉ sStr.data) (hde : ('-' : Char) ∉ eStr.data)
    (hse : s ≤ e) (helt : e < bytes.length) :
    statusOf (sendFileAsStream fsys p ct
        (some ("bytes=" ++ sStr ++ "-" ++ eStr)) StreamOutcome.ok) = some 206 ∧
    headerVal (sendFileAsStream fsys p ct
        (some ("bytes=" ++ sStr ++ "-" ++ eStr)) StreamOutcome.ok) "Content-Range"
      = some ("bytes " ++ toString s ++ "-" ++ toString e ++ "/" ++ toString bytes.length) ∧
    headerVal (sendFileAsStream fsys p ct
        (some ("bytes=" ++ sStr ++ "-" ++ eStr)) StreamOutcome.ok) "Content-Length"
      = some (toString (e - s + 1)) ∧
    chunkBytes (sendFileAsStream fsys p ct
        (some ("bytes=" ++ sStr ++ "-" ++ eStr)) StreamOutcome.ok)
      = (bytes.drop s).take (e - s + 1) ∧
    ((bytes.drop s).take (e - s + 1)).length = e - s + 1 := by
  rw [sendFileAsStream_explicit_range bytes fsys p ct sStr eStr s e StreamOutcome.ok
        hf hs he hds hde hse]
  refine ⟨rfl, ?_, ?_, ?_, ?_⟩
  · simp [headerVal, headersOf, List.lookup]
  · simp [headerVal, headersOf, List.lookup]
  · simp only [chunkBytes, chunkBytes_pipe404_ok]
    exact chunksOf_flatten rangeHWM (by decide) _
  · simp only [List.length_take, List.length_drop]
    omega

theorem valid_explicit_range_request_206_witness :
    statusOf (sendFileAsStream (fun _ => FsFile.regular [10, 11, 12, 13, 14, 15]) "/v.mp4"
        "video/mp4" (some ("bytes=" ++ "2" ++ "-" ++ "4")) StreamOutcome.ok) = some 206 ∧
    headerVal (sendFileAsStream (fun _ => FsFile.regular [10, 11, 12, 13, 14, 15]) "/v.mp4"
        "video/mp4" (some ("bytes=" ++ "2" ++ "-" ++ "4")) StreamOutcome.ok) "Content-Range"
      = some ("bytes " ++ toString 2 ++ "-" ++ toString 4 ++ "/" ++ toString (List.length [10, 11, 12, 13, 14, 15])) ∧
    headerVal (sendFileAsStream (fun _ => FsFile.regular [10, 11, 12, 13, 14, 15]) "/v.mp4"
        "video/mp4" (some ("bytes=" ++ "2" ++ "-" ++ "4")) StreamOutcome.ok) "Content-Length"
      = some (toString (4 - 2 + 1)) ∧
    chunkBytes (sendFileAsStream (fun _ => FsFile.regular [10, 11, 12, 13, 14, 15]) "/v.mp4"
        "video/mp4" (some ("bytes=" ++ "2" ++ "-" ++ "4")) StreamOutcome.ok)
      = (List.drop 2 [10, 11, 12, 13, 14, 15]).take (4 - 2 + 1) ∧
    ((List.drop 2 [10, 11, 12, 13, 14, 15]).take (4 - 2 + 1)).length = 4 - 2 + 1 :=
  valid_explicit_range_request_206 [10, 11, 12, 13, 14, 15] (fun _ => FsFile.regular [10, 11, 12, 13, 14, 15])
    "/v.mp4" "video/mp4" "2" "4" 2 4 rfl (by decide) (by decide) (by decide) (by decide)
    (by decide) (by decide)

end NodeServerUltralite

namespace NodeServerUltralite

/-- C5: when the explicit end exceeds fileSize - 1, no clamping happens —
the 206 head advertises the requested end and a Content-Length of
end - start + 1, although fewer bytes are actually streamed. -/
theorem overlong_end_no_clamp (bytes : List Nat) (fsys : String → FsFile)
    (p ct sStr eStr : String) (s e : Nat)
    (hf : fsys p = FsFile.regular bytes)
    (hs : parseIntJS sStr = some (s : Int)) (he : parseIntJS eStr = some (e : Int))
    (hds : ('-' : Char) ∉ sStr.data) (hde : ('-' : Char) ∉ eStr.data)
    (hse : s ≤ e) (hbig : bytes.length ≤ e) :
    statusOf (sendFileAsStream fsys p ct
        (some ("bytes=" ++ sStr ++ "-" ++ eStr)) StreamOutcome.ok) = some 206 ∧
    headerVal (sendFileAsStream fsys p ct
        (some ("bytes=" ++ sStr ++ "-" ++ eStr)) StreamOutcome.ok) "Content-Range"
      = some ("bytes " ++ toString s ++ "-" ++ toString e ++ "/" ++ toString bytes.length) ∧
    headerVal (sendFileAsStream fsys p ct
        (some ("bytes=" ++ sStr ++ "-" ++ eStr)) StreamOutcome.ok) "Content-Length"
      = some (toString (e - s + 1)) ∧
    (chunkBytes (sendFileAsStream fsys p ct
        (some ("bytes=" ++ sStr ++ "-" ++ eStr)) StreamOutcome.ok)).length
      = bytes.length - s ∧
    bytes.length - s < e - s + 1 := by
  rw [sendFileAsStream_explicit_range bytes fsys p ct sStr eStr s e StreamOutcome.ok
        hf hs he hds hde hse]
  refine ⟨rfl, ?_, ?_, ?_, ?_⟩
  · simp [headerVal, headersOf, List.lookup]
  · simp [headerVal, headersOf, List.lookup]
  · simp only [chunkBytes, chunkBytes_pipe404_ok]
    rw [chunksOf_flatten rangeHWM (by decide)]
    simp only [List.length_take, List.length_drop]
    omega
  · omega

theorem overlong_end_no_clamp_witness :
    statusOf (sendFileAsStream (fun _ => FsFile.regular [7, 7, 7]) "/v.mp4"
        "video/mp4" (some ("bytes=" ++ "0" ++ "-" ++ "9")) StreamOutcome.ok) = some 206 ∧
    headerVal (sendFileAsStream (fun _ => FsFile.regular [7, 7, 7]) "/v.mp4"
        "video/mp4" (some ("bytes=" ++ "0" ++ "-" ++ "9")) StreamOutcome.ok) "Content-Range"
      = some ("bytes " ++ toString 0 ++ "-" ++ toString 9 ++ "/" ++ toString (List.length [7, 7, 7])) ∧
    headerVal (sendFileAsStream (fun _ => FsFile.regular [7, 7, 7]) "/v.mp4"
        "video/mp4" (some ("bytes=" ++ "0" ++ "-" ++ "9")) StreamOutcome.ok) "Content-Length"
      = some (toString (9 - 0 + 1)) ∧
    (chunkBytes (sendFileAsStream (fun _ => FsFile.regular [7, 7, 7]) "/v.mp4"
        "video/mp4" (some ("bytes=" ++ "0" ++ "-" ++ "9")) StreamOutcome.ok)).length
      = List.length [7, 7, 7] - 0 ∧
    List.length [7, 7, 7] - 0 < 9 - 0 + 1 :=
  overlong_end_no_clamp [7, 7, 7] (fun _ => FsFile.regular [7, 7, 7]) "/v.mp4" "video/mp4"
    "0" "9" 0 9 rfl (by decide) (by decide) (by decide) (by decide) (by decide) (by decide)

/-- C6: with no Range header (absent or empty), the response is a 200 whose
Content-Length is the file size, carries no Content-Range header, and the
whole file is streamed. -/
theorem absent_range_200_full (bytes : List Nat) (fsys : String → FsFile)
    (p ct : String) (rh : Option String)
    (hf : fsys p = FsFile.regular bytes) (hrh : rh = none ∨ rh = some "") :
    statusOf (sendFileAsStream fsys p ct rh StreamOutcome.ok) = some 200 ∧
    headerVal (sendFileAsStream fsys p ct rh StreamOutcome.ok) "Content-Length"
      = some (toString bytes.length) ∧
    headerVal (sendFileAsStream fsys p ct rh StreamOutcome.ok) "Content-Range" = none ∧
    chunkBytes (sendFileAsStream fsys p ct rh StreamOutcome.ok) = bytes := by
  rw [sendFileAsStream_no_range bytes fsys p ct rh StreamOutcome.ok hf hrh]
  refine ⟨rfl, ?_, ?_, ?_⟩
  · simp [headerVal, headersOf, fullFileResponse, List.lookup]
  · simp [headerVal, headersOf, fullFileResponse, List.lookup]
  · simp only [fullFileResponse, chunkBytes, chunkBytes_pipePlain_ok]
    exact chunksOf_flatten defaultHWM (by decide) bytes

theorem absent_range_200_full_witness :
    statusOf (sendFileAsStream (fun _ => FsFile.regular [1, 2, 3]) "/v.mp4" "video/mp4"
        none StreamOutcome.ok) = some 200 ∧
    headerVal (sendFileAsStream (fun _ => FsFile.regular [1, 2, 3]) "/v.mp4" "video/mp4"
        none StreamOutcome.ok) "Content-Length" = some (toString (List.length [1, 2, 3])) ∧
    headerVal (sendFileAsStream (fun _ => FsFile.regular [1, 2, 3]) "/v.mp4" "video/mp4"
        none StreamOutcome.ok) "Content-Range" = none ∧
    chunkBytes (sendFileAsStream (fun _ => FsFile.regular [1, 2, 3]) "/v.mp4" "video/mp4"
        none StreamOutcome.ok) = [1, 2, 3] :=
  absent_range_200_full [1, 2, 3] (fun _ => FsFile.regular [1, 2, 3]) "/v.mp4" "video/mp4"
    none rfl (Or.inl rfl)

end NodeServerUltralite

namespace NodeServerUltralite

/-- C2: the handler for the known catalog id "1" throws a TypeError before
writing any headers — `path.join(__dirname, videoObj.internalVideoUrl)` is
reached with `undefined`, because the catalog entry carries `videoUrl` /
`thumbnailUrl` while the handlers read `internalVideoUrl` /
`internalThumbnailUrl`; no 404 (nor any response) is produced. -/
theorem known_id_handler_throws (dir : String) (fsys : String → FsFile)
    (rh : Option String) (oc : StreamOutcome) :
    serverHandle "GET" "/api/videos/1" dir fsys rh oc = Except.error pathArgTypeError ∧
    serverHandle "GET" "/api/thumbnails/1" dir fsys rh oc = Except.error pathArgTypeError :=
  ⟨rfl, rfl⟩

/-- C3 counterexample: a malformed Range value (`bytes=abc-def`) does not
fall back to a 200 full-file response — the code writes a 206 head with
Content-Range `bytes NaN-NaN/1000`. -/
theorem malformed_range_no_fallback_cex :
    statusOf (sendFileAsStream (fun _ => FsFile.regular (List.replicate 1000 0)) "/v.mp4"
        "video/mp4" (some "bytes=abc-def") StreamOutcome.ok) = some 206 ∧
    headerVal (sendFileAsStream (fun _ => FsFile.regular (List.replicate 1000 0)) "/v.mp4"
        "video/mp4" (some "bytes=abc-def") StreamOutcome.ok) "Content-Range"
      = some "bytes NaN-NaN/1000" ∧
    statusOf (sendFileAsStream (fun _ => FsFile.regular (List.replicate 1000 0)) "/v.mp4"
        "video/mp4" (some "bytes=abc-def") StreamOutcome.ok) ≠ some 200 := by
  refine ⟨?_, ?_, ?_⟩ <;> decide

/-- C3 amended: a present, nonempty Range value never degrades to the
full-file 200 response — the code always takes the 206 branch and emits a
Content-Range header; when the start part of the value is unparseable
(`parseInt` yields NaN, as for `bytes=abc-def` or `bytes=abc-`), the head
advertises `Content-Length: NaN` and `Content-Range: bytes NaN-{end}/{fileSize}`
(with end = NaN for `bytes=abc-def`, and fileSize - 1 when the end part is
empty), and the read-stream construction is rejected so no body bytes are
streamed. -/
theorem malformed_range_206_nan :
    (∀ (bytes : List Nat) (fsys : String → FsFile) (p ct rhv : String) (oc : StreamOutcome),
        fsys p = FsFile.regular bytes → rhv.data ≠ [] →
        statusOf (sendFileAsStream fsys p ct (some rhv) oc) = some 206 ∧
        ∃ v, headerVal (sendFileAsStream fsys p ct (some rhv) oc) "Content-Range" = some v) ∧
    (∀ (bytes : List Nat) (fsys : String → FsFile) (p ct rhv : String) (oc : StreamOutcome),
        fsys p = FsFile.regular bytes → rhv.data ≠ [] →
        parseIntJS ((jsSplit '-' (stripFirstOccur "bytes=" rhv)).headD "") = none →
        headerVal (sendFileAsStream fsys p ct (some rhv) oc) "Content-Length" = some "NaN" ∧
        (∃ endStr, headerVal (sendFileAsStream fsys p ct (some rhv) oc) "Content-Range"
            = some ("bytes NaN-" ++ endStr ++ "/" ++ toString bytes.length)) ∧
        chunkBytes (sendFileAsStream fsys p ct (some rhv) oc) = []) ∧
    (∀ (bytes : List Nat) (fsys : String → FsFile) (p ct : String) (oc : StreamOutcome),
        fsys p = FsFile.regular bytes →
        sendFileAsStream fsys p ct (some "bytes=abc-def") oc
          = ResAction.writeHead 206
              [("Content-Range", "bytes NaN-NaN/" ++ toString bytes.length),
               ("Accept-Ranges", "bytes"),
               ("Content-Type", ct),
               ("Content-Length", "NaN"),
               ("Access-Control-Allow-Origin", "*"),
               ("Connection", "keep-alive")]
            :: [ResAction.streamAborted]) := by
  refine ⟨?_, ?_, ?_⟩
  · intro bytes fsys p ct rhv oc hf hne
    simp only [sendFileAsStream, hf]
    rw [if_neg hne]
    simp only [rangeResponse]
    exact ⟨rfl, _, rfl⟩
  · intro bytes fsys p ct rhv oc hf hne hstart
    simp only [sendFileAsStream, hf]
    rw [if_neg hne]
    simp only [rangeResponse]
    rw [hstart]
    exact ⟨rfl, ⟨_, rfl⟩, rfl⟩
  · intro bytes fsys p ct oc hf
    simp only [sendFileAsStream, hf]
    rfl

theorem malformed_range_206_nan_witness :
    statusOf (sendFileAsStream (fun _ => FsFile.regular [0, 0]) "/v.mp4" "video/mp4"
        (some "bytes=abc-") StreamOutcome.ok) = some 206 ∧
    headerVal (sendFileAsStream (fun _ => FsFile.regular [0, 0]) "/v.mp4" "video/mp4"
        (some "bytes=abc-") StreamOutcome.ok) "Content-Length" = some "NaN" ∧
    chunkBytes (sendFileAsStream (fun _ => FsFile.regular [0, 0]) "/v.mp4" "video/mp4"
        (some "bytes=abc-") StreamOutcome.ok) = [] ∧
    sendFileAsStream (fun _ => FsFile.regular [0, 0]) "/v.mp4" "video/mp4"
        (some "bytes=abc-def") StreamOutcome.ok
      = ResAction.writeHead 206
          [("Content-Range", "bytes NaN-NaN/" ++ toString (List.length [0, 0])),
           ("Accept-Ranges", "bytes"),
           ("Content-Type", "video/mp4"),
           ("Content-Length", "NaN"),
           ("Access-Control-Allow-Origin", "*"),
           ("Connection", "keep-alive")]
        :: [ResAction.streamAborted] :=
  ⟨(malformed_range_206_nan.1 [0, 0] (fun _ => FsFile.regular [0, 0]) "/v.mp4" "video/mp4"
      "bytes=abc-" StreamOutcome.ok rfl (by decide)).1,
   (malformed_range_206_nan.2.1 [0, 0] (fun _ => FsFile.regular [0, 0]) "/v.mp4" "video/mp4"
      "bytes=abc-" StreamOutcome.ok rfl (by decide) (by decide)).1,
   (malformed_range_206_nan.2.1 [0, 0] (fun _ => FsFile.regular [0, 0]) "/v.mp4" "video/mp4"
      "bytes=abc-" StreamOutcome.ok rfl (by decide) (by decide)).2.2,
   malformed_range_206_nan.2.2 [0, 0] (fun _ => FsFile.regular [0, 0]) "/v.mp4" "video/mp4"
      StreamOutcome.ok rfl⟩

/-- C4 counterexample: for `bytes=-500` on a 1000-byte file the Content-Range
is `bytes NaN-500/1000` — the omitted start is not replaced by 0 and the
stated range does not begin at byte 0. -/
theorem omitted_start_not_zero_cex :
    headerVal (sendFileAsStream (fun _ => FsFile.regular (List.replicate 1000 0)) "/v.mp4"
        "video/mp4" (some "bytes=-500") StreamOutcome.ok) "Content-Range"
      = some "bytes NaN-500/1000" ∧
    some "bytes NaN-500/1000" ≠ some "bytes 0-500/1000" := by
  constructor <;> decide

/-- C4 amended: when the start is omitted, `parseInt("")` yields NaN (not 0):
the plan's start is NaN, the head reads `bytes NaN-{end}/{fileSize}` with
`Content-Length: NaN`, and the read-stream construction is rejected. -/
theorem omitted_start_nan (bytes : List Nat) (fsys : String → FsFile) (p ct eStr : String)
    (e : Int) (oc : StreamOutcome) (hf : fsys p = FsFile.regular bytes)
    (he : parseIntJS eStr = some e) (hde : ('-' : Char) ∉ eStr.data) :
    sendFileAsStream fsys p ct (some ("bytes=-" ++ eStr)) oc
      = ResAction.writeHead 206
          [("Content-Range", "bytes NaN-" ++ toString e ++ "/" ++ toString bytes.length),
           ("Accept-Ranges", "bytes"),
           ("Content-Type", ct),
           ("Content-Length", "NaN"),
           ("Access-Control-Allow-Origin", "*"),
           ("Connection", "keep-alive")]
        :: [ResAction.streamAborted] := by
  have hene : eStr.data ≠ [] := by
    intro h0
    simp [parseIntJS, h0] at he
  have htruthy : jsTruthyStr (some eStr) = true := by
    cases h : eStr.data with
    | nil => exact absurd h hene
    | cons a as => simp [jsTruthyStr, h]
  have hhdr : ¬ ("bytes=-" ++ eStr).data = [] := by
    simp [String.data_append]
  have hsplit := jsSplit_range_omitted_start eStr hde
  simp only [sendFileAsStream, hf]
  rw [if_neg hhdr]
  simp only [rangeResponse]
  rw [hsplit]
  simp only [List.headD, List.get?, Option.getD, htruthy, he, if_true]
  rw [show parseIntJS "" = none from rfl]
  rfl

theorem omitted_start_nan_witness :
    sendFileAsStream (fun _ => FsFile.regular [0, 0, 0]) "/v.mp4" "video/mp4"
        (some ("bytes=-" ++ "500")) StreamOutcome.ok
      = ResAction.writeHead 206
          [("Content-Range", "bytes NaN-" ++ toString (500 : Int) ++ "/" ++ toString (List.length [0, 0, 0])),
           ("Accept-Ranges", "bytes"),
           ("Content-Type", "video/mp4"),
           ("Content-Length", "NaN"),
           ("Access-Control-Allow-Origin", "*"),
           ("Connection", "keep-alive")]
        :: [ResAction.streamAborted] :=
  omitted_start_nan [0, 0, 0] (fun _ => FsFile.regular [0, 0, 0]) "/v.mp4" "video/mp4"
    "500" 500 StreamOutcome.ok rfl (by decide) (by decide)

/-- C8: when the read stream errors after the 206 head is committed, the
attached error handler runs `send404`, i.e. the code attempts a second
`writeHead` (404) on the same response instead of just closing the
connection. -/
theorem midstream_error_second_writehead :
    sendFileAsStream (fun _ => FsFile.regular (List.replicate 10 0)) "/v.mp4" "video/mp4"
        (some "bytes=0-9") (StreamOutcome.failAfter 0)
      = [ResAction.writeHead 206
           [("Content-Range", "bytes 0-9/10"), ("Accept-Ranges", "bytes"),
            ("Content-Type", "video/mp4"), ("Content-Length", "10"),
            ("Access-Control-Allow-Origin", "*"), ("Connection", "keep-alive")],
         ResAction.writeHead 404
           [("Content-Type", "text/plain"), ("Access-Control-Allow-Origin", "*")],
         ResAction.resEnd "404 Not Found"] ∧
    writeHeadCount (sendFileAsStream (fun _ => FsFile.regular (List.replicate 10 0)) "/v.mp4"
        "video/mp4" (some "bytes=0-9") (StreamOutcome.failAfter 0)) = 2 := by
  constructor <;> decide

/-- C9: every chunk written to the connection is bounded by the configured
highWaterMark of 4 MiB — memory per streaming operation is O(chunk size) —
and chunking loses no bytes: the chunks of any payload flatten back to it. -/
theorem bounded_chunk_transfer :
    (∀ (fsys : String → FsFile) (p ct : String) (rh : Option String) (oc : StreamOutcome)
        (b : List Nat), ResAction.writeChunk b ∈ sendFileAsStream fsys p ct rh oc →
        b.length ≤ 4 * 1024 * 1024) ∧
    (∀ (hwm : Nat) (l : List Nat), hwm ≠ 0 → (chunksOf hwm l).flatten = l) := by
  constructor
  · intro fsys p ct rh oc b h
    have hb := sendFileAsStream_chunk_le fsys p ct rh oc b h
    unfold rangeHWM at hb
    omega
  · intro hwm l hh
    exact chunksOf_flatten hwm hh l

theorem bounded_chunk_transfer_witness :
    (ResAction.writeChunk [1, 2, 3] ∈ sendFileAsStream (fun _ => FsFile.regular [1, 2, 3])
        "/v.mp4" "video/mp4" none StreamOutcome.ok) ∧
    ([1, 2, 3] : List Nat).length ≤ 4 * 1024 * 1024 ∧
    (chunksOf 2 [1, 2, 3]).flatten = [1, 2, 3] :=
  ⟨by decide,
   bounded_chunk_transfer.1 (fun _ => FsFile.regular [1, 2, 3]) "/v.mp4" "video/mp4" none
     StreamOutcome.ok [1, 2, 3] (by decide),
   bounded_chunk_transfer.2 2 [1, 2, 3] (by decide)⟩

/-- C10: the dispatcher matches the raw URL verbatim (split on '/', empty
segments dropped, no query-string stripping), so a query string is bound
into the trailing path parameter: `GET /api/videos/1?t=5` dispatches to the
video route with id = "1?t=5", the catalog lookup fails, and the server
responds 404. -/
theorem query_string_binds_param :
    (∀ t : String, t.data ≠ [] → ('/' : Char) ∉ t.data →
        matchRoute "/api/videos/:id" ("/api/videos/" ++ t) = some [("id", t)]) ∧
    findEndpointHandler "GET" "/api/videos/1?t=5"
      = some (EndpointTag.videoStream, [("id", "1?t=5")]) ∧
    (∀ (dir : String) (fsys : String → FsFile) (rh : Option String) (oc : StreamOutcome),
        serverHandle "GET" "/api/videos/1?t=5" dir fsys rh oc = Except.ok send404Actions) :=
  ⟨matchRoute_videos_id, by decide, fun _ _ _ _ => rfl⟩

theorem query_string_binds_param_witness :
    matchRoute "/api/videos/:id" ("/api/videos/" ++ "1?t=5") = some [("id", "1?t=5")] :=
  query_string_binds_param.1 "1?t=5" (by decide) (by decide)

end NodeServerUltralite

namespace NodeServerUltralite

/-- C7: the routes respond 404 with no partial-content headers for an
unknown catalog id, and the responder replies 404 when `fs.stat` fails or
the path is not a regular file; but the claim's known-id/missing-file case
never reaches that 404 — the final conjunct records that a request for the
known id "1" throws a TypeError (undefined catalog field fed to
`path.join`) whatever the filesystem says, instead of responding 404. -/
theorem missing_resource_404_behavior :
    (∀ (idv dir : String) (fsys : String → FsFile) (rh : Option String) (oc : StreamOutcome),
        idv.data ≠ [] → ('/' : Char) ∉ idv.data → (∀ v ∈ videoList, v.id ≠ idv) →
        serverHandle "GET" ("/api/videos/" ++ idv) dir fsys rh oc = Except.ok send404Actions ∧
        serverHandle "GET" ("/api/thumbnails/" ++ idv) dir fsys rh oc = Except.ok send404Actions) ∧
    (∀ (fsys : String → FsFile) (p ct : String) (rh : Option String) (oc : StreamOutcome),
        fsys p = FsFile.statError ∨ fsys p = FsFile.notRegularFile →
        sendFileAsStream fsys p ct rh oc = send404Actions) ∧
    statusOf send404Actions = some 404 ∧
    headerVal send404Actions "Content-Range" = none ∧
    (∀ (dir : String) (fsys : String → FsFile) (rh : Option String) (oc : StreamOutcome),
        serverHandle "GET" "/api/videos/1" dir fsys rh oc = Except.error pathArgTypeError) := by
  refine ⟨?_, ?_, by decide, by decide, fun dir fsys rh oc => rfl⟩
  · intro idv dir fsys rh oc h1 h2 hnid
    exact ⟨serverHandle_unknown_id_videos idv dir fsys rh oc h1 h2 hnid,
           serverHandle_unknown_id_thumbnails idv dir fsys rh oc h1 h2 hnid⟩
  · intro fsys p ct rh oc hmiss
    rcases hmiss with hm | hm <;> simp [sendFileAsStream, hm]

theorem missing_resource_404_behavior_witness :
    (serverHandle "GET" ("/api/videos/" ++ "2") "/srv" (fun _ => FsFile.statError) none
        StreamOutcome.ok = Except.ok send404Actions ∧
     serverHandle "GET" ("/api/thumbnails/" ++ "2") "/srv" (fun _ => FsFile.statError) none
        StreamOutcome.ok = Except.ok send404Actions) ∧
    sendFileAsStream (fun _ => FsFile.statError) "/missing.mp4" "video/mp4" none
        StreamOutcome.ok = send404Actions :=
  ⟨missing_resource_404_behavior.1 "2" "/srv" (fun _ => FsFile.statError) none StreamOutcome.ok
     (by decide) (by decide) (by decide),
   missing_resource_404_behavior.2.1 (fun _ => FsFile.statError) "/missing.mp4" "video/mp4"
     none StreamOutcome.ok (Or.inl rfl)⟩

end NodeServerUltralite
